import Mathlib

/-!
# Verification of `ned_extinction_calc.py`

A shallow embedding of the single source file `ned_extinction_calc.py`,
a client for the NED Galactic Reddening and Extinction Calculator.

Modelling choices:

* Python floats are modelled as exact rationals (`ℚ`); the builtin
  `float(s)` conversion is modelled by `pyFloat?`, a parser for plain
  signed decimal literals returning `Option ℚ` (`none` models the
  `ValueError` raised by Python on a non-numeric string).
* The network is modelled by passing the response explicitly: a
  `NEDResponse` carries the HTTP status, the reason phrase, and the body
  already tokenised into the `html.parser` callback events
  (start tag / end tag / character data) that drive `NEDParser`.
  The standard-library HTML tokeniser itself is outside the repository.
* The outgoing HTTP request is reified as a `Request` value recording the
  method, host, port, path, the query parameters handed to `urlencode`
  (as an ordered key/value list), and the headers.
* Exceptions are modelled with `Option`/`Except`: an uncaught
  `IndexError` inside the parser is `none`, and the explicit
  `HTTPResponseError` raise is `Except.error`.
* Python `dict` is modelled as an insertion-ordered association list
  where inserting an existing key overwrites its value in place
  (`dictInsert`), matching CPython semantics.
* Calls to `warnings.warn` are modelled by returning the list of emitted
  warnings alongside the result.
-/

namespace NED

/-- `startsWithChars needle hay` tests whether `needle` is an initial
segment of `hay`. -/
def startsWithChars : List Char → List Char → Bool
  | [], _ => true
  | _ :: _, [] => false
  | c :: cs, d :: ds => (c = d) && startsWithChars cs ds

/-- `containsChars needle hay` tests whether `needle` occurs as a
contiguous sublist of `hay`. -/
def containsChars (needle : List Char) : List Char → Bool
  | [] => needle.isEmpty
  | d :: ds => startsWithChars needle (d :: ds) || containsChars needle ds

/-- Python substring containment `needle in hay` on strings
(case-sensitive). -/
def pyIn (needle hay : String) : Bool :=
  containsChars needle.data hay.data

/-- Numeric value of a list of decimal digit characters. -/
def digitsVal (cs : List Char) : ℚ :=
  cs.foldl (fun a c => 10 * a + ((c.toNat - '0'.toNat : Nat) : ℚ)) 0

/-- Decimal digit test. -/
def isDigit (c : Char) : Bool := '0' ≤ c && c ≤ '9'

/-- Parser for an unsigned decimal literal `digits [. digits]`
(at least one digit overall, nothing left over). -/
def parseUnsigned? (cs : List Char) : Option ℚ :=
  let intPart := cs.takeWhile isDigit
  let rest := cs.dropWhile isDigit
  match rest with
  | [] => if intPart = [] then none else some (digitsVal intPart)
  | '.' :: rest2 =>
      let fracPart := rest2.takeWhile isDigit
      let rest3 := rest2.dropWhile isDigit
      if rest3 = [] then
        if intPart = [] && fracPart = [] then none
        else some (digitsVal intPart + digitsVal fracPart / (10 ^ fracPart.length))
      else none
  | _ => none

/-- Model of Python `float(s)` restricted to plain signed decimal
literals (the forms occurring in the NED extinction table and in
coordinate strings). `none` models `ValueError`. -/
def pyFloat? (s : String) : Option ℚ :=
  match s.data with
  | '+' :: cs => parseUnsigned? cs
  | '-' :: cs => (parseUnsigned? cs).map Neg.neg
  | cs => parseUnsigned? cs

/-- The `ra`/`dec` normalisation at the top of `request_extinctions`:
`try: float(x); x = str(x) + 'd' except ValueError: pass`. -/
def normalizeCoord (s : String) : String :=
  if (pyFloat? s).isSome then s ++ "d" else s

/-- Insertion into a Python `dict` modelled as an insertion-ordered
association list: an existing key is overwritten in place, a new key is
appended at the end. -/
def dictInsert {α : Type} (d : List (String × α)) (k : String) (v : α) :
    List (String × α) :=
  if d.any (fun p => p.1 = k) then
    d.map (fun p => if p.1 = k then (k, v) else p)
  else
    d ++ [(k, v)]

/-- An `html.parser` callback event: the interface between the standard
library tokeniser and the repository's `NEDParser` subclass. -/
inductive HEvent where
  | starttag (tag : String) (attrs : List (String × String))
  | endtag (tag : String)
  | data (s : String)
  deriving DecidableEq, Repr

/-- The mutable state of the `NEDParser` HTML parser subclass:
`self.extinctions`, `self._working_entry`, `self._enabled`. -/
structure NEDParser where
  extinctions : List (String × ℚ)
  working_entry : List String
  enabled : Bool
  deriving DecidableEq, Repr

/-- `NEDParser.__init__`. -/
def NEDParser.init : NEDParser :=
  { extinctions := [], working_entry := [], enabled := false }

/-- `NEDParser.handle_starttag`. -/
def NEDParser.handle_starttag (st : NEDParser) (tag : String)
    (attrs : List (String × String)) : NEDParser :=
  let st1 := if tag = "div" && attrs.contains ("id", "moreBANDS")
             then { st with enabled := true } else st
  if tag = "tr" then { st1 with working_entry := [] } else st1

/-- `NEDParser._ingest_working_tuple`. `none` models the uncaught
`IndexError` raised by `self._working_entry[-1]` on an empty tuple; the
`ValueError` from a non-float last fragment is caught and the row
silently dropped. -/
def NEDParser.ingest_working_tuple (st : NEDParser) : Option NEDParser :=
  let filt_name := " ".intercalate (st.working_entry.take 2)
  match st.working_entry.getLast? with
  | none => none
  | some last =>
      match pyFloat? last with
      | some filt_extinction =>
          some { st with
                 extinctions := dictInsert st.extinctions filt_name filt_extinction }
      | none => some st

/-- `NEDParser.handle_endtag`. -/
def NEDParser.handle_endtag (st : NEDParser) (tag : String) : Option NEDParser :=
  let st1 := if tag = "div" && st.enabled then { st with enabled := false } else st
  if tag = "tr" then st1.ingest_working_tuple else some st1

/-- `NEDParser.handle_data`. -/
def NEDParser.handle_data (st : NEDParser) (s : String) : NEDParser :=
  { st with working_entry := st.working_entry ++ [s] }

/-- Dispatch one tokeniser event to the corresponding handler. -/
def NEDParser.handle_event (st : NEDParser) : HEvent → Option NEDParser
  | HEvent.starttag tag attrs => some (st.handle_starttag tag attrs)
  | HEvent.endtag tag => st.handle_endtag tag
  | HEvent.data s => some (st.handle_data s)

/-- Feeding a stream of events through the parser
(the `for line in html_output: parser.feed(line)` loop, at the event
level); `none` propagates an uncaught exception. -/
def feedEvents : NEDParser → List HEvent → Option NEDParser
  | st, [] => some st
  | st, e :: es =>
      match st.handle_event e with
      | none => none
      | some st2 => feedEvents st2 es

/-- The `filters` argument: either a lone string or a sequence of
filter-name strings (the `isinstance(filters, str)` distinction). -/
inductive Filters where
  | one (s : String)
  | many (fs : List String)
  deriving DecidableEq, Repr

/-- The `filters = [filters]` wrapping of a lone string. -/
def Filters.toList : Filters → List String
  | Filters.one s => [s]
  | Filters.many fs => fs

/-- The `list_out` flag: false exactly when `filters` was a lone string. -/
def Filters.list_out : Filters → Bool
  | Filters.one _ => false
  | Filters.many _ => true

/-- The single outgoing HTTP request issued by a call. -/
structure Request where
  method : String
  host : String
  port : Nat
  path : String
  params : List (String × String)
  header : List (String × String)
  deriving DecidableEq, Repr

/-- The HTTP response handed back to the call: status, reason phrase,
and the body tokenised into parser events. -/
structure NEDResponse where
  status : Nat
  reason : String
  events : List HEvent
  deriving DecidableEq, Repr

/-- Errors aborting a call: the explicitly raised `HTTPResponseError`
(carrying `response.status` and `response.reason`), or the uncaught
`IndexError` escaping from `NEDParser._ingest_working_tuple`. -/
inductive CallError where
  | httpResponseError (status : Nat) (reason : String)
  | indexError
  deriving DecidableEq, Repr

/-- The two `warnings.warn` diagnostics of the matching loop. -/
inductive Warning where
  | noMatch (filt : String)
  | multiMatch (filt : String) (n : Nat)
  deriving DecidableEq, Repr

/-- The shape of the returned value: a list, a dict, or (for a lone
string `filters` with `as_dict=False`) a scalar. `none` is Python's
`None` for an unmatched filter. -/
inductive Output where
  | list (xs : List (Option ℚ))
  | dict (d : List (String × Option ℚ))
  | scalar (x : Option ℚ)
  deriving DecidableEq, Repr

/-- The list comprehension
`[ext for name, ext in parser.extinctions.items() if filt in name]`. -/
def matchesFor (d : List (String × ℚ)) (filt : String) : List ℚ :=
  (d.filter (fun p => pyIn filt p.1)).map (fun p => p.2)

/-- One iteration of the matching loop: the value recorded for `filt`
and the warnings emitted for it. -/
def processFilter (d : List (String × ℚ)) (filt : String) :
    Option ℚ × List Warning :=
  if (matchesFor d filt).length = 0 then
    (none, [Warning.noMatch filt])
  else if 1 < (matchesFor d filt).length then
    (some ((matchesFor d filt).sum / ((matchesFor d filt).length : ℚ)),
     [Warning.multiMatch filt (matchesFor d filt).length])
  else
    (some ((matchesFor d filt).sum / ((matchesFor d filt).length : ℚ)), [])

/-- The whole `for filt in filters` matching loop: the `extinctions`
accumulator list and the emitted warnings, in loop order. -/
def processFilters (d : List (String × ℚ)) : List String →
    List (Option ℚ) × List Warning
  | [] => ([], [])
  | f :: fs =>
      ((processFilter d f).1 :: (processFilters d fs).1,
       (processFilter d f).2 ++ (processFilters d fs).2)

/-- `dict(zip(filters, extinctions))`. -/
def dictOfZip (ks : List String) (vs : List (Option ℚ)) :
    List (String × Option ℚ) :=
  (ks.zip vs).foldl (fun d p => dictInsert d p.1 p.2) []

/-- The request constructed by `request_extinctions`: fixed server
`ned.ipac.caltech.edu:80`, fixed path `/cgi-bin/calc?`, the `get_params`
dict in its insertion order (handed to `urllib.parse.urlencode`), and
the single `Content-type` header. -/
def buildRequest (ra dec coord_system equinox obs_epoch : String) : Request :=
  { method := "GET",
    host := "ned.ipac.caltech.edu",
    port := 80,
    path := "/cgi-bin/calc?",
    params := [("lon", normalizeCoord ra),
               ("lat", normalizeCoord dec),
               ("pa", "0.0"),
               ("in_csys", coord_system),
               ("in_equinox", equinox),
               ("obs_epoch", obs_epoch),
               ("out_csys", "Equitorial"),
               ("out_equinox", "J2000.0")],
    header := [("Content-type", "application/x-www-form-urlencoded")] }

/-- `request_extinctions(ra, dec, filters, coord_system, equinox,
obs_epoch, as_dict)` with the network made explicit: the response is an
input, and the value is the pair of the single request issued and either
an error or the result together with the warnings emitted. Coordinates
are taken as their string forms (`str(ra)`/`str(dec)` is applied before
use in the source). -/
def request_extinctions (ra dec : String) (filters : Filters)
    (coord_system equinox obs_epoch : String) (as_dict : Bool)
    (resp : NEDResponse) :
    Request × Except CallError (Output × List Warning) :=
  let req := buildRequest ra dec coord_system equinox obs_epoch
  if resp.status ≠ 200 then
    (req, Except.error (CallError.httpResponseError resp.status resp.reason))
  else
    match feedEvents NEDParser.init resp.events with
    | none => (req, Except.error CallError.indexError)
    | some st =>
        let fs := filters.toList
        let r := processFilters st.extinctions fs
        let out : Output :=
          if as_dict then Output.dict (dictOfZip fs r.1)
          else if filters.list_out then Output.list r.1
          else Output.scalar (r.1.headD none)
        (req, Except.ok (out, r.2))

/-! ## Helper lemmas -/

theorem processFilters_fst_length (d : List (String × ℚ)) (fs : List String) :
    (processFilters d fs).1.length = fs.length := by
  induction fs with
  | nil => rfl
  | cons f fs ih => simp [processFilters, ih]

theorem processFilters_fst_get? (d : List (String × ℚ)) (fs : List String)
    (i : Nat) (hi : i < fs.length) :
    (processFilters d fs).1.get? i = some (processFilter d (fs.get ⟨i, hi⟩)).1 := by
  induction fs generalizing i with
  | nil => simp at hi
  | cons f fs ih =>
    cases i with
    | zero => rfl
    | succ j =>
      have hj : j < fs.length := Nat.lt_of_succ_lt_succ hi
      simpa [processFilters] using ih j hj

theorem processFilters_warn_mem (d : List (String × ℚ)) (fs : List String)
    (f : String) (hf : f ∈ fs) (w : Warning) (hw : w ∈ (processFilter d f).2) :
    w ∈ (processFilters d fs).2 := by
  induction fs with
  | nil => cases hf
  | cons g gs ih =>
    rcases List.mem_cons.mp hf with h | h
    · subst h
      exact List.mem_append.mpr (Or.inl hw)
    · exact List.mem_append.mpr (Or.inr (ih h))

theorem processFilter_fst_of_ne_nil (d : List (String × ℚ)) (f : String)
    (hne : matchesFor d f ≠ []) :
    (processFilter d f).1
      = some ((matchesFor d f).sum / ((matchesFor d f).length : ℚ)) := by
  have hlen : (matchesFor d f).length ≠ 0 := by
    simpa [List.length_eq_zero] using hne
  unfold processFilter
  rcases Nat.lt_or_ge 1 (matchesFor d f).length with h | h
  · simp [hlen, h]
  · simp [hlen, Nat.not_lt.mpr h]

theorem processFilter_multi_warn (d : List (String × ℚ)) (f : String)
    (hmulti : 1 < (matchesFor d f).length) :
    Warning.multiMatch f (matchesFor d f).length ∈ (processFilter d f).2 := by
  have hne : matchesFor d f ≠ [] := by
    intro hnil
    rw [hnil] at hmulti
    simp at hmulti
  have hlen : ¬(matchesFor d f).length = 0 := by
    simpa [List.length_eq_zero] using hne
  unfold processFilter
  simp [hne, hlen, hmulti]

theorem processFilter_of_nil (d : List (String × ℚ)) (f : String)
    (hnil : matchesFor d f = []) :
    processFilter d f = (none, [Warning.noMatch f]) := by
  unfold processFilter
  simp [hnil]

theorem mem_matchesFor (d : List (String × ℚ)) (f : String)
    (p : String × ℚ) (hp : p ∈ d) (hin : pyIn f p.1 = true) :
    p.2 ∈ matchesFor d f := by
  exact List.mem_map_of_mem _ (List.mem_filter.mpr ⟨hp, hin⟩)

theorem feedEvents_nil (st : NEDParser) : feedEvents st [] = some st := rfl

theorem feedEvents_cons (st : NEDParser) (e : HEvent) (es : List HEvent) :
    feedEvents st (e :: es)
      = match st.handle_event e with
        | none => none
        | some st2 => feedEvents st2 es := rfl

theorem feedEvents_append (es es2 : List HEvent) (st st2 : NEDParser)
    (h : feedEvents st es = some st2) :
    feedEvents st (es ++ es2) = feedEvents st2 es2 := by
  induction es generalizing st with
  | nil =>
    have hst : st = st2 := by simpa [feedEvents] using h
    subst hst
    rfl
  | cons e es ih =>
    rw [List.cons_append]
    cases hev : NEDParser.handle_event st e with
    | none =>
      exfalso
      rw [feedEvents_cons, hev] at h
      exact Option.noConfusion h
    | some st1 =>
      rw [feedEvents_cons, hev] at h
      rw [feedEvents_cons, hev]
      exact ih st1 h

theorem request_extinctions_eq_ok (ra dec : String) (filters : Filters)
    (coord_system equinox obs_epoch reason : String) (ad : Bool)
    (events : List HEvent) (st : NEDParser)
    (hparse : feedEvents NEDParser.init events = some st) :
    request_extinctions ra dec filters coord_system equinox obs_epoch ad
        ⟨200, reason, events⟩ =
      (buildRequest ra dec coord_system equinox obs_epoch,
       Except.ok
        ((if ad then
            Output.dict (dictOfZip filters.toList
              (processFilters st.extinctions filters.toList).1)
          else if filters.list_out then
            Output.list (processFilters st.extinctions filters.toList).1
          else
            Output.scalar ((processFilters st.extinctions filters.toList).1.headD none)),
         (processFilters st.extinctions filters.toList).2)) := by
  unfold request_extinctions
  simp [hparse]

/-! ## Claim theorems -/

/-- C1: for every requested filter string, the matching step selects the
extracted entries whose name contains the requested string as a
case-sensitive substring; whenever at least one entry matches, the value
recorded at that filter's position is the arithmetic mean of the matched
values (hence exactly the single entry's parsed number when exactly one
matches), and when more than one matches a multiple-match warning is
emitted. -/
theorem request_extinctions_mean_of_matches
    (ra dec coord_system equinox obs_epoch reason : String)
    (fs : List String) (events : List HEvent) (st : NEDParser)
    (hparse : feedEvents NEDParser.init events = some st)
    (i : Nat) (hi : i < fs.length) (f : String) (hf : fs.get ⟨i, hi⟩ = f)
    (hne : matchesFor st.extinctions f ≠ []) :
    ∃ vals ws,
      (request_extinctions ra dec (Filters.many fs) coord_system equinox
          obs_epoch false ⟨200, reason, events⟩).2
        = Except.ok (Output.list vals, ws)
      ∧ vals.get? i
          = some (some ((matchesFor st.extinctions f).sum /
              ((matchesFor st.extinctions f).length : ℚ)))
      ∧ (∀ p ∈ st.extinctions, pyIn f p.1 = true →
          p.2 ∈ matchesFor st.extinctions f)
      ∧ (∀ v, matchesFor st.extinctions f = [v] → vals.get? i = some (some v))
      ∧ (1 < (matchesFor st.extinctions f).length →
          Warning.multiMatch f (matchesFor st.extinctions f).length ∈ ws) := by
  refine ⟨(processFilters st.extinctions fs).1,
          (processFilters st.extinctions fs).2, ?_, ?_, ?_, ?_, ?_⟩
  · rw [request_extinctions_eq_ok _ _ _ _ _ _ _ _ _ _ hparse]
    rfl
  · rw [processFilters_fst_get? st.extinctions fs i hi, hf,
        processFilter_fst_of_ne_nil _ _ hne]
  · intro p hp hpin
    exact mem_matchesFor _ _ p hp hpin
  · intro v hv
    rw [processFilters_fst_get? st.extinctions fs i hi, hf,
        processFilter_fst_of_ne_nil _ _ hne, hv]
    simp
  · intro hmulti
    exact processFilters_warn_mem _ _ f (hf ▸ fs.get_mem i hi) _
      (processFilter_multi_warn _ _ hmulti)

/-- A concrete two-row response body: rows `SDSS g → 0.1` and
`SDSS r → 0.3`, used by witnesses. -/
def twoRowEvents : List HEvent :=
  [HEvent.starttag "tr" [], HEvent.data "SDSS", HEvent.data "g",
   HEvent.data "0.1", HEvent.endtag "tr",
   HEvent.starttag "tr" [], HEvent.data "SDSS", HEvent.data "r",
   HEvent.data "0.3", HEvent.endtag "tr"]

/-- The parser state produced by `twoRowEvents`. -/
def twoRowState : NEDParser :=
  { extinctions := [("SDSS g", 1/10), ("SDSS r", 3/10)],
    working_entry := ["SDSS", "r", "0.3"],
    enabled := false }

/-- Evaluating the parser on the concrete two-row body. -/
theorem twoRow_parse : feedEvents NEDParser.init twoRowEvents = some twoRowState := by
  simp [twoRowEvents, twoRowState, feedEvents, NEDParser.handle_event,
    NEDParser.handle_starttag, NEDParser.handle_endtag, NEDParser.handle_data,
    NEDParser.ingest_working_tuple, NEDParser.init, dictInsert, pyFloat?,
    parseUnsigned?, digitsVal, isDigit,
    (show " ".intercalate ["SDSS", "g"] = "SDSS g" from rfl),
    (show " ".intercalate ["SDSS", "r"] = "SDSS r" from rfl)]

/-- Witness for C1: on the concrete two-row response both rows match the
filter "SDSS" and the recorded value is their mean. -/
theorem request_extinctions_mean_of_matches_witness :
    ∃ vals ws,
      (request_extinctions "150.0" "2.5" (Filters.many ["SDSS"]) "Equatorial"
          "J2000.0" "2000" false ⟨200, "OK", twoRowEvents⟩).2
        = Except.ok (Output.list vals, ws)
      ∧ vals.get? 0
          = some (some ((matchesFor twoRowState.extinctions "SDSS").sum /
              ((matchesFor twoRowState.extinctions "SDSS").length : ℚ)))
      ∧ (∀ p ∈ twoRowState.extinctions, pyIn "SDSS" p.1 = true →
          p.2 ∈ matchesFor twoRowState.extinctions "SDSS")
      ∧ (∀ v, matchesFor twoRowState.extinctions "SDSS" = [v] →
          vals.get? 0 = some (some v))
      ∧ (1 < (matchesFor twoRowState.extinctions "SDSS").length →
          Warning.multiMatch "SDSS" (matchesFor twoRowState.extinctions "SDSS").length
            ∈ ws) :=
  request_extinctions_mean_of_matches "150.0" "2.5" "Equatorial" "J2000.0"
    "2000" "OK" ["SDSS"] twoRowEvents twoRowState
    twoRow_parse 0 (by decide) "SDSS" rfl (by decide)

/-- The first component of a call is always the one request built by
`buildRequest`, whatever the response was. -/
theorem request_extinctions_fst
    (ra dec : String) (filters : Filters)
    (coord_system equinox obs_epoch : String) (ad : Bool) (resp : NEDResponse) :
    (request_extinctions ra dec filters coord_system equinox obs_epoch ad resp).1
      = buildRequest ra dec coord_system equinox obs_epoch := by
  unfold request_extinctions
  by_cases h : resp.status = 200
  · rw [if_neg (by simp [h])]
    cases hfe : feedEvents NEDParser.init resp.events <;> simp
  · rw [if_pos (by simp [h])]

/-- C2: with `as_dict=False`, a sequence of filter names returns a list
of the same length, positionally aligned with the request order (entry
`i` is the processing of filter `i`), while a lone string (not wrapped
in a list) returns a scalar, not a list. -/
theorem request_extinctions_output_shape
    (ra dec coord_system equinox obs_epoch reason : String)
    (events : List HEvent) (st : NEDParser)
    (hparse : feedEvents NEDParser.init events = some st) :
    (∀ fs : List String, ∃ vals ws,
      (request_extinctions ra dec (Filters.many fs) coord_system equinox
          obs_epoch false ⟨200, reason, events⟩).2
        = Except.ok (Output.list vals, ws)
      ∧ vals.length = fs.length
      ∧ ∀ i (hi : i < fs.length),
          vals.get? i = some (processFilter st.extinctions (fs.get ⟨i, hi⟩)).1)
    ∧ (∀ s : String, ∃ x ws,
      (request_extinctions ra dec (Filters.one s) coord_system equinox
          obs_epoch false ⟨200, reason, events⟩).2
        = Except.ok (Output.scalar x, ws)) := by
  constructor
  · intro fs
    refine ⟨(processFilters st.extinctions fs).1,
            (processFilters st.extinctions fs).2, ?_, ?_, ?_⟩
    · rw [request_extinctions_eq_ok _ _ _ _ _ _ _ _ _ _ hparse]
      rfl
    · exact processFilters_fst_length _ _
    · intro i hi
      exact processFilters_fst_get? _ _ i hi
  · intro s
    refine ⟨(processFilters st.extinctions [s]).1.headD none,
            (processFilters st.extinctions [s]).2, ?_⟩
    rw [request_extinctions_eq_ok _ _ _ _ _ _ _ _ _ _ hparse]
    rfl

/-- Witness for C2 on the concrete two-row response: three requested
filters give a three-element list; a lone string gives a scalar. -/
theorem request_extinctions_output_shape_witness :
    (∃ vals ws,
      (request_extinctions "150.0" "2.5"
          (Filters.many ["SDSS g", "SDSS r", "F125W"]) "Equatorial"
          "J2000.0" "2000" false ⟨200, "OK", twoRowEvents⟩).2
        = Except.ok (Output.list vals, ws) ∧ vals.length = 3)
    ∧ (∃ x ws,
      (request_extinctions "150.0" "2.5" (Filters.one "SDSS g") "Equatorial"
          "J2000.0" "2000" false ⟨200, "OK", twoRowEvents⟩).2
        = Except.ok (Output.scalar x, ws)) := by
  have h := request_extinctions_output_shape "150.0" "2.5" "Equatorial"
    "J2000.0" "2000" "OK" twoRowEvents twoRowState twoRow_parse
  obtain ⟨vals, ws, he, hlen, _⟩ := h.1 ["SDSS g", "SDSS r", "F125W"]
  exact ⟨⟨vals, ws, he, by simpa using hlen⟩, h.2 "SDSS g"⟩

/-- C3: a response whose status is not 200 makes the call fail with an
HTTP-response error carrying exactly that status and reason phrase; an
HTTP-response error arises in no other situation; and the call issues
exactly the one request built from its arguments (no retry). -/
theorem request_extinctions_http_error
    (ra dec : String) (filters : Filters)
    (coord_system equinox obs_epoch : String) (ad : Bool) (resp : NEDResponse) :
    (resp.status ≠ 200 →
      (request_extinctions ra dec filters coord_system equinox obs_epoch ad
          resp).2
        = Except.error (CallError.httpResponseError resp.status resp.reason))
    ∧ (∀ s r,
        (request_extinctions ra dec filters coord_system equinox obs_epoch ad
            resp).2
          = Except.error (CallError.httpResponseError s r) →
        resp.status ≠ 200 ∧ s = resp.status ∧ r = resp.reason)
    ∧ (request_extinctions ra dec filters coord_system equinox obs_epoch ad
        resp).1
      = buildRequest ra dec coord_system equinox obs_epoch := by
  refine ⟨?_, ?_, request_extinctions_fst _ _ _ _ _ _ _ _⟩
  · intro hne
    unfold request_extinctions
    rw [if_pos hne]
  · intro s r heq
    by_cases h : resp.status = 200
    · exfalso
      unfold request_extinctions at heq
      rw [if_neg (by simp [h])] at heq
      cases hfe : feedEvents NEDParser.init resp.events with
      | none => rw [hfe] at heq; simp at heq
      | some st => rw [hfe] at heq; simp at heq
    · unfold request_extinctions at heq
      rw [if_pos h] at heq
      simp only [Except.error.injEq, CallError.httpResponseError.injEq] at heq
      exact ⟨h, heq.1.symm, heq.2.symm⟩

/-- Witness for C3: a 500 response fails with an HTTP-response error
carrying status 500 and the reason phrase. -/
theorem request_extinctions_http_error_witness :
    (request_extinctions "150.0" "2.5" (Filters.one "SDSS g") "Equatorial"
        "J2000.0" "2000" false ⟨500, "Internal Server Error", []⟩).2
      = Except.error (CallError.httpResponseError 500 "Internal Server Error") :=
  (request_extinctions_http_error "150.0" "2.5" (Filters.one "SDSS g")
    "Equatorial" "J2000.0" "2000" false
    ⟨500, "Internal Server Error", []⟩).1 (by decide)

/-- C4: a requested filter matching zero extracted entries does not fail
the call: a no-match warning is emitted, `None` is recorded at that
filter's position, and the call still completes with an ok result. -/
theorem request_extinctions_no_match
    (ra dec coord_system equinox obs_epoch reason : String)
    (fs : List String) (events : List HEvent) (st : NEDParser)
    (hparse : feedEvents NEDParser.init events = some st)
    (i : Nat) (hi : i < fs.length) (f : String) (hf : fs.get ⟨i, hi⟩ = f)
    (hnil : matchesFor st.extinctions f = []) :
    ∃ vals ws,
      (request_extinctions ra dec (Filters.many fs) coord_system equinox
          obs_epoch false ⟨200, reason, events⟩).2
        = Except.ok (Output.list vals, ws)
      ∧ vals.get? i = some none
      ∧ Warning.noMatch f ∈ ws := by
  refine ⟨(processFilters st.extinctions fs).1,
          (processFilters st.extinctions fs).2, ?_, ?_, ?_⟩
  · rw [request_extinctions_eq_ok _ _ _ _ _ _ _ _ _ _ hparse]
    rfl
  · rw [processFilters_fst_get? st.extinctions fs i hi, hf,
        processFilter_of_nil _ _ hnil]
  · refine processFilters_warn_mem _ _ f (hf ▸ fs.get_mem i hi) _ ?_
    rw [processFilter_of_nil _ _ hnil]
    simp

/-- Witness for C4: the filter "F125W" matches nothing in the concrete
two-row response; `None` is recorded and a no-match warning emitted. -/
theorem request_extinctions_no_match_witness :
    ∃ vals ws,
      (request_extinctions "150.0" "2.5" (Filters.many ["F125W"]) "Equatorial"
          "J2000.0" "2000" false ⟨200, "OK", twoRowEvents⟩).2
        = Except.ok (Output.list vals, ws)
      ∧ vals.get? 0 = some none
      ∧ Warning.noMatch "F125W" ∈ ws :=
  request_extinctions_no_match "150.0" "2.5" "Equatorial" "J2000.0" "2000"
    "OK" ["F125W"] twoRowEvents twoRowState twoRow_parse 0 (by decide)
    "F125W" rfl (by decide)

/-- C5 counterexample: the claim that rows outside the
`div id=moreBANDS` container contribute no entries is false. Feeding a
body consisting of one bare table row and no `div` at all produces the
entry `SDSS g`, with the container flag never having been set. -/
theorem row_outside_container_still_ingested :
    (feedEvents NEDParser.init
        [HEvent.starttag "tr" [], HEvent.data "SDSS", HEvent.data "g",
         HEvent.data "0.1", HEvent.endtag "tr"]).map
        (fun st => (st.extinctions.map Prod.fst, st.enabled))
      = some (["SDSS g"], false) := by decide

/-- C5 (amended): the parser sets the `_enabled` flag on entering the
`div` with id `moreBANDS` and clears it on leaving, but the flag never
gates ingestion: every row-close triggers `_ingest_working_tuple`, and
the entries produced do not depend on the flag — rows outside the
container contribute exactly as rows inside it do. -/
theorem ingestion_independent_of_container
    (exts : List (String × ℚ)) (work : List String) (b : Bool) :
    NEDParser.handle_endtag ⟨exts, work, b⟩ "tr"
      = NEDParser.ingest_working_tuple ⟨exts, work, b⟩
    ∧ (NEDParser.ingest_working_tuple ⟨exts, work, b⟩).map
        (fun s => s.extinctions)
      = (NEDParser.ingest_working_tuple ⟨exts, work, false⟩).map
        (fun s => s.extinctions) := by
  constructor
  · simp [NEDParser.handle_endtag]
  · unfold NEDParser.ingest_working_tuple
    cases hl : work.getLast? with
    | none => simp
    | some last => cases hpf : pyFloat? last <;> simp [hpf]

/-- C6: a row entry's filter name is the row's first two text fragments
joined with a space, and its value the last fragment parsed as a float;
a row whose last fragment does not parse as a float is silently
discarded (the state is returned unchanged — no entry, no error, no
warning). -/
theorem ingest_working_tuple_spec (st : NEDParser) (last : String)
    (hlast : st.working_entry.getLast? = some last) :
    (∀ v, pyFloat? last = some v →
      st.ingest_working_tuple
        = some ⟨dictInsert st.extinctions
              (" ".intercalate (st.working_entry.take 2)) v,
            st.working_entry, st.enabled⟩)
    ∧ (pyFloat? last = none → st.ingest_working_tuple = some st) := by
  constructor
  · intro v hv
    simp only [NEDParser.ingest_working_tuple, hlast, hv]
  · intro hv
    simp only [NEDParser.ingest_working_tuple, hlast, hv]

/-- Witness for C6: the fragments `SDSS`, `g`, `0.1` yield the entry
`SDSS g ↦ 0.1`, and the fragments `SDSS`, `g`, `mag` (last fragment not
a float) leave the state unchanged. -/
theorem ingest_working_tuple_spec_witness :
    NEDParser.ingest_working_tuple ⟨[], ["SDSS", "g", "0.1"], false⟩
      = some ⟨dictInsert []
          (" ".intercalate (["SDSS", "g", "0.1"].take 2)) (1/10),
          ["SDSS", "g", "0.1"], false⟩
    ∧ NEDParser.ingest_working_tuple ⟨[], ["SDSS", "g", "mag"], false⟩
      = some ⟨[], ["SDSS", "g", "mag"], false⟩ :=
  ⟨(ingest_working_tuple_spec ⟨[], ["SDSS", "g", "0.1"], false⟩ "0.1" rfl).1
      (1/10) (by simp [pyFloat?, parseUnsigned?, digitsVal, isDigit]),
   (ingest_working_tuple_spec ⟨[], ["SDSS", "g", "mag"], false⟩ "mag" rfl).2
      (by decide)⟩

/-- C7: an `ra`/`dec` input whose string form parses as a float is sent
in the outgoing `lon`/`lat` query parameters with the decimal-degree
suffix `d` appended, while a non-parsing value passes through
unchanged. -/
theorem coord_normalization
    (ra dec coord_system equinox obs_epoch : String) (filters : Filters)
    (ad : Bool) (resp : NEDResponse) :
    ((request_extinctions ra dec filters coord_system equinox obs_epoch ad
        resp).1.params.lookup "lon" = some (normalizeCoord ra))
    ∧ ((request_extinctions ra dec filters coord_system equinox obs_epoch ad
        resp).1.params.lookup "lat" = some (normalizeCoord dec))
    ∧ (∀ s : String, (pyFloat? s).isSome = true → normalizeCoord s = s ++ "d")
    ∧ (∀ s : String, (pyFloat? s).isSome = false → normalizeCoord s = s) := by
  refine ⟨?_, ?_, ?_, ?_⟩
  · rw [request_extinctions_fst]
    rfl
  · rw [request_extinctions_fst]
    rfl
  · intro s h
    simp [normalizeCoord, h]
  · intro s h
    simp [normalizeCoord, h]

/-- Witness for C7: the bare numbers 150.0 and 2.5 are suffixed with `d`
in the outgoing parameters, and a sexagesimal string is unchanged. -/
theorem coord_normalization_witness :
    ((request_extinctions "150.0" "2.5" (Filters.one "SDSS g") "Equatorial"
        "J2000.0" "2000" false ⟨200, "OK", []⟩).1.params.lookup "lon"
      = some (normalizeCoord "150.0"))
    ∧ normalizeCoord "150.0" = "150.0" ++ "d"
    ∧ normalizeCoord "2.5" = "2.5" ++ "d"
    ∧ normalizeCoord "10h23m45s" = "10h23m45s" :=
  ⟨(coord_normalization "150.0" "2.5" "Equatorial" "J2000.0" "2000"
      (Filters.one "SDSS g") false ⟨200, "OK", []⟩).1,
   (coord_normalization "150.0" "2.5" "Equatorial" "J2000.0" "2000"
      (Filters.one "SDSS g") false ⟨200, "OK", []⟩).2.2.1 "150.0" (by decide),
   (coord_normalization "150.0" "2.5" "Equatorial" "J2000.0" "2000"
      (Filters.one "SDSS g") false ⟨200, "OK", []⟩).2.2.1 "2.5" (by decide),
   (coord_normalization "150.0" "2.5" "Equatorial" "J2000.0" "2000"
      (Filters.one "SDSS g") false ⟨200, "OK", []⟩).2.2.2 "10h23m45s"
      (by decide)⟩

/-- C8: every call issues exactly one HTTP GET to
`ned.ipac.caltech.edu` port 80 at path `/cgi-bin/calc?`, whose query
parameters are exactly `lon`, `lat`, `pa` fixed at `0.0`, `in_csys`,
`in_equinox`, `obs_epoch`, `out_csys` fixed to the literal misspelled
`Equitorial`, and `out_equinox` fixed to `J2000.0`, with the request
header `Content-type: application/x-www-form-urlencoded`. -/
theorem wire_contract
    (ra dec coord_system equinox obs_epoch : String) (filters : Filters)
    (ad : Bool) (resp : NEDResponse) :
    (request_extinctions ra dec filters coord_system equinox obs_epoch ad
        resp).1
      = { method := "GET",
          host := "ned.ipac.caltech.edu",
          port := 80,
          path := "/cgi-bin/calc?",
          params := [("lon", normalizeCoord ra), ("lat", normalizeCoord dec),
                     ("pa", "0.0"), ("in_csys", coord_system),
                     ("in_equinox", equinox), ("obs_epoch", obs_epoch),
                     ("out_csys", "Equitorial"), ("out_equinox", "J2000.0")],
          header := [("Content-type",
                      "application/x-www-form-urlencoded")] } :=
  request_extinctions_fst ra dec filters coord_system equinox obs_epoch ad resp

/-- C9: a row-close seen while the collected fragment tuple is empty
raises an uncaught IndexError from indexing the last fragment, aborting
the whole call; only the float-conversion ValueError is caught (a
nonempty tuple never aborts), never the IndexError. -/
theorem endtag_tr_empty_tuple_aborts
    (ra dec coord_system equinox obs_epoch reason : String) (filters : Filters)
    (ad : Bool) (es : List HEvent) (st : NEDParser)
    (hfeed : feedEvents NEDParser.init es = some st)
    (hempty : st.working_entry = []) :
    st.handle_endtag "tr" = none
    ∧ feedEvents NEDParser.init (es ++ [HEvent.endtag "tr"]) = none
    ∧ (request_extinctions ra dec filters coord_system equinox obs_epoch ad
        ⟨200, reason, es ++ [HEvent.endtag "tr"]⟩).2
      = Except.error CallError.indexError
    ∧ (∀ st2 : NEDParser, st2.working_entry ≠ [] →
        st2.ingest_working_tuple.isSome = true) := by
  have h1 : st.handle_endtag "tr" = none := by
    simp [NEDParser.handle_endtag, NEDParser.ingest_working_tuple, hempty]
  have h2 : feedEvents NEDParser.init (es ++ [HEvent.endtag "tr"]) = none := by
    rw [feedEvents_append _ _ _ _ hfeed, feedEvents_cons]
    simp [NEDParser.handle_event, h1]
  refine ⟨h1, h2, ?_, ?_⟩
  · unfold request_extinctions
    rw [if_neg (by simp)]
    rw [h2]
  · intro st2 hne
    unfold NEDParser.ingest_working_tuple
    cases hl : st2.working_entry.getLast? with
    | none =>
      exact absurd (List.getLast?_eq_none_iff.mp hl) hne
    | some last =>
      cases hpf : pyFloat? last <;> simp [hpf]

/-- Witness for C9: an immediate `</tr>` with no preceding data aborts
the parse and the whole call with an IndexError. -/
theorem endtag_tr_empty_tuple_aborts_witness :
    NEDParser.init.handle_endtag "tr" = none
    ∧ feedEvents NEDParser.init ([] ++ [HEvent.endtag "tr"]) = none
    ∧ (request_extinctions "150.0" "2.5" (Filters.one "SDSS g") "Equatorial"
        "J2000.0" "2000" false ⟨200, "OK", [] ++ [HEvent.endtag "tr"]⟩).2
      = Except.error CallError.indexError :=
  ⟨(endtag_tr_empty_tuple_aborts "150.0" "2.5" "Equatorial" "J2000.0" "2000"
      "OK" (Filters.one "SDSS g") false [] NEDParser.init rfl rfl).1,
   (endtag_tr_empty_tuple_aborts "150.0" "2.5" "Equatorial" "J2000.0" "2000"
      "OK" (Filters.one "SDSS g") false [] NEDParser.init rfl rfl).2.1,
   (endtag_tr_empty_tuple_aborts "150.0" "2.5" "Equatorial" "J2000.0" "2000"
      "OK" (Filters.one "SDSS g") false [] NEDParser.init rfl rfl).2.2.1⟩

/-- C10: with `as_dict=True` and a lone string `filters` argument, the
call returns a one-entry mapping from that string to its value, not a
scalar: the dict output mode takes precedence over the lone-string
scalar rule. -/
theorem as_dict_single_string
    (ra dec coord_system equinox obs_epoch reason s : String)
    (events : List HEvent) (st : NEDParser)
    (hparse : feedEvents NEDParser.init events = some st) :
    ∃ x ws,
      (request_extinctions ra dec (Filters.one s) coord_system equinox
          obs_epoch true ⟨200, reason, events⟩).2
        = Except.ok (Output.dict [(s, x)], ws) := by
  refine ⟨(processFilter st.extinctions s).1,
          (processFilters st.extinctions [s]).2, ?_⟩
  rw [request_extinctions_eq_ok _ _ _ _ _ _ _ _ _ _ hparse]
  rfl

/-- Witness for C10: a lone "SDSS g" with `as_dict=True` returns the
one-entry mapping keyed by "SDSS g". -/
theorem as_dict_single_string_witness :
    ∃ x ws,
      (request_extinctions "150.0" "2.5" (Filters.one "SDSS g") "Equatorial"
          "J2000.0" "2000" true ⟨200, "OK", twoRowEvents⟩).2
        = Except.ok (Output.dict [("SDSS g", x)], ws) :=
  as_dict_single_string "150.0" "2.5" "Equatorial" "J2000.0" "2000" "OK"
    "SDSS g" twoRowEvents twoRowState twoRow_parse

end NED
